import Mathlib

/-!
# Verification of the minimum-biclique-cover repository against its specification

Shallow embedding of the repository's pure graph/validator/report logic.
Graphs are embedded as a list of nodes together with a list of undirected
edges (`networkx.Graph` semantics: edge membership is orientation
insensitive).  All external-solver calls are modelled as the exact optimum
of the integer program the code assembles, as stated in each doc comment.
-/

/-- Embedding of a `networkx.Graph`: node list and edge list.  An edge
`(u, v)` is undirected, so adjacency tests look at both orientations. -/
structure Graph where
  nodes : List Nat
  edges : List (Nat × Nat)
deriving Repr, DecidableEq

/-- `networkx` adjacency test `(u, v) in g.edges`: true when the pair is
stored in either orientation. -/
def Graph.hasEdge (g : Graph) (u v : Nat) : Bool :=
  g.edges.any (fun e => (e.1 == u && e.2 == v) || (e.1 == v && e.2 == u))

/-! ## C1: the cover validators (`base_model.py`, `model.py`)

`MBCModel.get_bicliques` encodes a reported solution as a dataframe: one
row per node, one column per selected biclique, each cell holding 0 (node
not in the biclique), 1 (first partition) or 2 (second partition).  We
embed the dataframe as the list of selected columns together with the cell
function. -/

/-- Rows of column `b` holding value 1 (`df[df[biclique] == 1].index`). -/
def partitionOne (nodes : List Nat) (cell : Nat → Nat → Nat) (b : Nat) : List Nat :=
  nodes.filter (fun u => cell u b == 1)

/-- Rows of column `b` holding value 2 (`df[df[biclique] == 2].index`). -/
def partitionTwo (nodes : List Nat) (cell : Nat → Nat → Nat) (b : Nat) : List Nat :=
  nodes.filter (fun u => cell u b == 2)

/-- Embedding of `MBCModel.is_biclique_cover` (`base_model.py`).
The code first tests `df.any(axis=1).all()` (every row, i.e. every node,
has a nonzero cell in some column), then for each column checks that every
pair (partition-1 node, partition-2 node) is an edge of the graph. -/
def is_biclique_cover (g : Graph) (cols : List Nat) (cell : Nat → Nat → Nat) : Bool :=
  (g.nodes.all (fun u => cols.any (fun b => cell u b != 0))) &&
  (cols.all (fun b =>
    !((partitionOne g.nodes cell b).any (fun u =>
      (partitionTwo g.nodes cell b).any (fun v => !(g.hasEdge u v))))))

/-- Spec-side predicate: edge `(u, v)` is covered by some reported
biclique, i.e. its endpoints lie in opposite partitions of one column. -/
def edgeCovered (cols : List Nat) (cell : Nat → Nat → Nat) (u v : Nat) : Prop :=
  ∃ b ∈ cols, (cell u b = 1 ∧ cell v b = 2) ∨ (cell u b = 2 ∧ cell v b = 1)

instance (cols : List Nat) (cell : Nat → Nat → Nat) (u v : Nat) :
    Decidable (edgeCovered cols cell u v) := by
  unfold edgeCovered; infer_instance

/-- Spec-side predicate: every edge of the graph is covered by at least
one reported biclique. -/
def allEdgesCovered (g : Graph) (cols : List Nat) (cell : Nat → Nat → Nat) : Prop :=
  ∀ e ∈ g.edges, edgeCovered cols cell e.1 e.2

instance (g : Graph) (cols : List Nat) (cell : Nat → Nat → Nat) :
    Decidable (allEdgesCovered g cols cell) := by
  unfold allEdgesCovered; infer_instance

/-- Spec-side predicate: every reported biclique is a genuine complete
bipartite subgraph of the original graph. -/
def genuineBicliques (g : Graph) (cols : List Nat) (cell : Nat → Nat → Nat) : Prop :=
  ∀ b ∈ cols, ∀ u ∈ partitionOne g.nodes cell b, ∀ v ∈ partitionTwo g.nodes cell b,
    g.hasEdge u v = true

instance (g : Graph) (cols : List Nat) (cell : Nat → Nat → Nat) :
    Decidable (genuineBicliques g cols cell) := by
  unfold genuineBicliques; infer_instance

/-- Triangle graph 0-1-2, used as counterexample input. -/
def triangleGraph : Graph := { nodes := [0, 1, 2], edges := [(0, 1), (0, 2), (1, 2)] }

/-- Reported solution on the triangle: a single biclique, node 0 in the
first partition, nodes 1 and 2 in the second (the star at 0). -/
def triangleCell : Nat → Nat → Nat := fun u _ => if u = 0 then 1 else 2

/-- C1 counterexample: on the triangle, the star at node 0 covers every
node and is a genuine biclique, so `is_biclique_cover` returns `True`,
yet edge (1, 2) is covered by no reported biclique.  The validator checks
node coverage (`df.any(axis=1).all()`), not edge coverage. -/
theorem c1_counterexample :
    is_biclique_cover triangleGraph [0] triangleCell = true ∧
    ¬ allEdgesCovered triangleGraph [0] triangleCell := by
  decide

/-! ## C9: `is_biclique` (`util.py`)

`is_biclique` builds the edge-induced subgraph, tests bipartiteness, then
calls `networkx.bipartite.sets`, which raises `AmbiguousSolution` when the
(bipartite) subgraph is disconnected.  The raised exception is embedded as
`none`; a returned boolean as `some`. -/

/-- Embedding of `networkx.Graph.edge_subgraph`: the subgraph whose edges
are the edges of `g` listed in `es` (orientation insensitive) and whose
nodes are their endpoints. -/
def edge_subgraph (g : Graph) (es : List (Nat × Nat)) : Graph :=
  let fs := g.edges.filter (fun e =>
    es.any (fun f => (f.1 == e.1 && f.2 == e.2) || (f.1 == e.2 && f.2 == e.1)))
  { nodes := (fs.flatMap (fun e => [e.1, e.2])).dedup, edges := fs }

/-- All node subsets that properly 2-colour the graph (each edge crosses
the subset boundary).  Nonemptiness is exactly 2-colourability. -/
def properColorings (g : Graph) : List (List Nat) :=
  g.nodes.sublists.filter (fun s =>
    g.edges.all (fun e => s.contains e.1 != s.contains e.2))

/-- Embedding of `networkx.is_bipartite`: the graph admits a proper
2-colouring. -/
def is_bipartite (g : Graph) : Bool :=
  !(properColorings g).isEmpty

/-- Neighbours of `u` read off the undirected edge list. -/
def neighborsIn (edges : List (Nat × Nat)) (u : Nat) : List Nat :=
  edges.filterMap (fun e =>
    if e.1 = u then some e.2 else if e.2 = u then some e.1 else none)

/-- One breadth-first expansion step of a reached-node set. -/
def expandReach (edges : List (Nat × Nat)) (s : List Nat) : List Nat :=
  (s ++ s.flatMap (neighborsIn edges)).dedup

/-- Iterated expansion with fuel (enough fuel: the node count). -/
def reachList (edges : List (Nat × Nat)) : Nat → List Nat → List Nat
  | 0, s => s
  | fuel + 1, s => reachList edges fuel (expandReach edges s)

/-- Embedding of `networkx.is_connected`: every node is reachable from the
first node.  (On an empty graph `networkx` raises; the callers below only
reach it with nonempty node sets, and the `false` value keeps the model
total.) -/
def is_connected (g : Graph) : Bool :=
  match g.nodes with
  | [] => false
  | u :: _ => g.nodes.all (fun v => (reachList g.edges g.nodes.length [u]).contains v)

/-- Embedding of `networkx.bipartite.sets` with no `top_nodes` argument:
raises (`none`) when the graph is disconnected, otherwise returns the
bipartition induced by a proper 2-colouring (unique up to swap on a
connected bipartite graph, so the first enumerated colouring is faithful). -/
def bipartite_sets (g : Graph) : Option (List Nat × List Nat) :=
  if is_connected g then
    (properColorings g).head?.map (fun s => (s, g.nodes.filter (fun v => !(s.contains v))))
  else none

/-- Embedding of `is_biclique` (`util.py`): `none` models the escape of
`networkx.bipartite.AmbiguousSolution`, `some b` a returned boolean. -/
def is_biclique (graph : Graph) (edges : List (Nat × Nat)) : Option Bool :=
  let subgraph := edge_subgraph graph edges
  if !(is_bipartite subgraph) then some false
  else
    match bipartite_sets subgraph with
    | none => none
    | some (set1, set2) =>
      some (!(set1.any (fun u => set2.any (fun v => !(subgraph.hasEdge u v)))))

/-- Two disjoint edges: the induced subgraph is bipartite but disconnected. -/
def disconnectedPairGraph : Graph :=
  { nodes := [0, 1, 2, 3], edges := [(0, 1), (2, 3)] }

/-- C9 counterexample: on the graph with edges (0,1) and (2,3), calling
`is_biclique` with both edges induces a disconnected bipartite subgraph,
so `networkx.bipartite.sets` raises `AmbiguousSolution` and no boolean is
returned. -/
theorem c9_counterexample :
    is_biclique disconnectedPairGraph [(0, 1), (2, 3)] = none := by
  decide

/-- C9 (amended): `is_biclique` returns a boolean whenever the subgraph
induced by the given edges is connected (in particular it never raises in
that case); it raises `AmbiguousSolution` exactly when that subgraph is
bipartite but disconnected. -/
theorem c9_amended (g : Graph) (es : List (Nat × Nat)) :
    (is_connected (edge_subgraph g es) = true → (is_biclique g es).isSome = true) ∧
    (is_biclique g es = none ↔
      is_bipartite (edge_subgraph g es) = true ∧ is_connected (edge_subgraph g es) = false) := by
  unfold is_biclique bipartite_sets
  by_cases hb : is_bipartite (edge_subgraph g es) = true
  · by_cases hc : is_connected (edge_subgraph g es) = true
    · have hne : properColorings (edge_subgraph g es) ≠ [] := by
        unfold is_bipartite at hb
        simpa [List.isEmpty_iff] using hb
      obtain ⟨c, cs, hcs⟩ : ∃ c cs, properColorings (edge_subgraph g es) = c :: cs := by
        cases hpc : properColorings (edge_subgraph g es) with
        | nil => exact absurd hpc hne
        | cons c cs => exact ⟨c, cs, rfl⟩
      simp [hb, hc, hcs]
    · simp [hb, eq_false_of_ne_true hc]
  · have hb' : is_bipartite (edge_subgraph g es) = false := eq_false_of_ne_true hb
    simp [hb']

/-- C9 amended-theorem witness: the star 0-{1,2} in the triangle induces a
connected subgraph, and `is_biclique` indeed returns a boolean there. -/
theorem c9_amended_witness :
    (is_biclique triangleGraph [(0, 1), (0, 2)]).isSome = true :=
  (c9_amended triangleGraph [(0, 1), (0, 2)]).1 (by decide)

/-! ## C1 (continued): the `NaturalModel` and `CGModel` validators
(`model.py`)

Both remaining validators call `is_biclique`, so they sit after its
embedding.  Solver values reach them only through the comparisons
`x[u,v,i].X == 1` and `z[i].X == 1`, embedded as the boolean functions
`xOne` and `zOne`; the escape of an exception raised inside `is_biclique`
is propagated as `none`. -/

/-- The normalisation `(min(u, v), max(u, v))` applied to edges in
`CGModel._check_biclique_cover`. -/
def normEdge (e : Nat × Nat) : Nat × Nat := (min e.1 e.2, max e.1 e.2)

/-- The biclique loop shared by both validators: check each edge list with
`is_biclique`, returning `False` at the first failure and propagating a
raised exception. -/
def check_each_biclique (g : Graph) : List (List (Nat × Nat)) → Option Bool
  | [] => some true
  | es :: rest =>
    match is_biclique g es with
    | none => none
    | some false => some false
    | some true => check_each_biclique g rest

/-- Embedding of `NaturalModel._check_biclique_cover` (`model.py`): first
`if not any(x[u,v,i].X == 1 ...): return False` (an existence test, not a
coverage test), then for each biclique `i` with `z[i].X == 1` the edge
list `[(u,v) for u,v in graph.edges if x[u,v,i].X == 1]` must pass
`is_biclique` (the `for`/`continue` loop is the selection of the
`zOne`-columns in order). -/
def NaturalModel_check_biclique_cover (g : Graph) (bicliques : List Nat)
    (xOne : Nat × Nat → Nat → Bool) (zOne : Nat → Bool) : Option Bool :=
  if !(g.edges.any (fun e => bicliques.any (fun i => xOne e i))) then some false
  else
    check_each_biclique g
      ((bicliques.filter (fun i => zOne i)).map
        (fun i => g.edges.filter (fun e => xOne e i)))

/-- Embedding of `CGModel._check_biclique_cover` (`model.py`): the
normalised graph edges must all occur among the normalised edges of the
reported bicliques (`issubset`), and each reported edge set must pass
`is_biclique`. -/
def CGModel_check_biclique_cover (g : Graph)
    (solution_bicliques : List (List (Nat × Nat))) : Option Bool :=
  let covered_edges := solution_bicliques.flatMap (fun es => es.map normEdge)
  let graph_edges := g.edges.map normEdge
  if !(graph_edges.all (fun e => covered_edges.contains e)) then some false
  else check_each_biclique g solution_bicliques

/-- The biclique loop succeeds exactly when every edge list passes. -/
theorem check_each_biclique_eq_true (g : Graph) (ess : List (List (Nat × Nat))) :
    check_each_biclique g ess = some true ↔
      ∀ es ∈ ess, is_biclique g es = some true := by
  induction ess with
  | nil => simp [check_each_biclique]
  | cons es rest ih =>
    unfold check_each_biclique
    cases h : is_biclique g es with
    | none => simp [h]
    | some b =>
      cases b with
      | false => simp [h]
      | true => simp [h, ih]

/-- C1 (amended): `MBCModel.is_biclique_cover` returns `True` exactly when
every NODE of the graph belongs to at least one reported biclique and
every reported biclique is a genuine complete bipartite subgraph — edge
coverage is not checked; `NaturalModel._check_biclique_cover` returns
`True` exactly when at least one edge is assigned to some biclique (`any`,
not `all`) and every selected biclique's edge list passes `is_biclique`;
only `CGModel._check_biclique_cover` verifies full edge coverage: it
returns `True` exactly when every graph edge occurs (normalised) in some
reported biclique and every reported edge set passes `is_biclique`. -/
theorem c1_amended (g : Graph) (cols : List Nat) (cell : Nat → Nat → Nat)
    (xOne : Nat × Nat → Nat → Bool) (zOne : Nat → Bool)
    (solution_bicliques : List (List (Nat × Nat))) :
    (is_biclique_cover g cols cell = true ↔
      (∀ u ∈ g.nodes, ∃ b ∈ cols, cell u b ≠ 0) ∧ genuineBicliques g cols cell) ∧
    (NaturalModel_check_biclique_cover g cols xOne zOne = some true ↔
      (∃ e ∈ g.edges, ∃ i ∈ cols, xOne e i = true) ∧
      (∀ i ∈ cols, zOne i = true →
        is_biclique g (g.edges.filter (fun e => xOne e i)) = some true)) ∧
    (CGModel_check_biclique_cover g solution_bicliques = some true ↔
      (∀ e ∈ g.edges,
        normEdge e ∈ solution_bicliques.flatMap (fun es => es.map normEdge)) ∧
      (∀ es ∈ solution_bicliques, is_biclique g es = some true)) := by
  refine ⟨?_, ?_, ?_⟩
  · unfold is_biclique_cover genuineBicliques
    simp [List.all_eq_true, List.any_eq_true]
  · unfold NaturalModel_check_biclique_cover
    by_cases hcov : g.edges.any (fun e => cols.any (fun i => xOne e i)) = true
    · rw [if_neg (by simp [hcov])]
      rw [check_each_biclique_eq_true]
      simp only [List.mem_map, List.mem_filter]
      constructor
      · intro h
        refine ⟨by simpa [List.any_eq_true] using hcov, ?_⟩
        intro i hi hz
        exact h _ ⟨i, ⟨hi, hz⟩, rfl⟩
      · rintro ⟨-, h⟩ es ⟨i, ⟨hi, hz⟩, rfl⟩
        exact h i hi hz
    · rw [if_pos (by simp [hcov])]
      have hcov2 : ¬ ∃ e ∈ g.edges, ∃ i ∈ cols, xOne e i = true := by
        intro hcontra
        exact hcov (by simpa [List.any_eq_true] using hcontra)
      simp [hcov2]
  · unfold CGModel_check_biclique_cover
    dsimp only
    by_cases hsub : (g.edges.map normEdge).all
        (fun e => (solution_bicliques.flatMap (fun es => es.map normEdge)).contains e) = true
    · rw [if_neg (by rw [hsub]; decide)]
      rw [check_each_biclique_eq_true]
      constructor
      · intro h
        refine ⟨?_, h⟩
        intro e he
        exact List.mem_of_elem_eq_true
          (List.all_eq_true.mp hsub (normEdge e) (List.mem_map_of_mem normEdge he))
      · rintro ⟨-, h⟩
        exact h
    · rw [if_pos (by simp only [Bool.not_eq_true] at hsub; rw [hsub]; decide)]
      constructor
      · intro hcontra
        exact absurd hcontra (by simp)
      · rintro ⟨hcov, -⟩
        exfalso
        apply hsub
        rw [List.all_eq_true]
        intro x hx
        obtain ⟨e, he, rfl⟩ := List.mem_map.mp hx
        exact List.elem_eq_true_of_mem (hcov e he)

/-! ## C8: graph mutation by `find_cover` (`heuristic.py`) and callbacks

`networkx` node/edge attribute dictionaries are part of the loaded graph.
`find_cover` writes a `"visited"` attribute on every edge, and
`indep_callback` (`model.py`) writes a `"weight"` attribute on every node.
The graph is embedded with its `"visited"` edge attribute, keyed by the
normalised endpoint pair (attribute dictionaries are shared between the
two orientations of an undirected edge); `none` models an absent key. -/

/-- A graph carrying the `"visited"` edge-attribute map and the
`"weight"` node-attribute map (weights are LP-relaxation values, embedded
as rationals). -/
structure AGraph where
  nodes : List Nat
  edges : List (Nat × Nat)
  visitedAttr : Nat × Nat → Option Bool
  weightAttr : Nat → Option Rat

/-- Normalised key of an undirected edge's attribute dictionary. -/
def edgeKey (u v : Nat) : Nat × Nat := (min u v, max u v)

/-- Attribute read `G.edges[u, v]["visited"]`. -/
def AGraph.getVisited (g : AGraph) (u v : Nat) : Option Bool :=
  g.visitedAttr (edgeKey u v)

/-- Attribute write `G.edges[u, v]["visited"] = b`. -/
def AGraph.setVisited (g : AGraph) (u v : Nat) (b : Bool) : AGraph :=
  { g with visitedAttr := fun f => if f = edgeKey u v then some b else g.visitedAttr f }

/-- `G.neighbors(u)` read off the undirected edge list. -/
def AGraph.neighbors (g : AGraph) (u : Nat) : List Nat :=
  neighborsIn g.edges u

/-- The initial loop of `find_cover`:
`for u, v in G.edges: G.edges[u, v]["visited"] = False`. -/
def initVisited (g : AGraph) : AGraph :=
  { g with visitedAttr := fun f =>
      if g.edges.any (fun e => edgeKey e.1 e.2 == f) then some false else g.visitedAttr f }

/-- Body of the neighbour loop of `find_cover` for a cover vertex:
collects the unvisited incident edges (smaller endpoint first) and marks
them visited on the graph. -/
def visitStep (vertex : Nat) (p : List (Nat × Nat) × AGraph) (v : Nat) :
    List (Nat × Nat) × AGraph :=
  let (lst, g) := p
  if vertex < v ∧ g.getVisited vertex v = some false then
    (lst ++ [(vertex, v)], g.setVisited vertex v true)
  else if v < vertex ∧ g.getVisited v vertex = some false then
    (lst ++ [(v, vertex)], g.setVisited v vertex true)
  else (lst, g)

/-- Body of the cover-vertex loop of `find_cover`. -/
def coverStep (acc : List (List (Nat × Nat)) × AGraph) (vertex : Nat) :
    List (List (Nat × Nat)) × AGraph :=
  let (newList, g) := (acc.2.neighbors vertex).foldl (visitStep vertex) ([], acc.2)
  (acc.1 ++ [newList], g)

/-- Embedding of `find_cover` (`heuristic.py`): returns the constructed
cover together with the graph object as left after the call (the code
mutates the input graph's edge attributes in place). -/
def find_cover (G : AGraph) (vertex_cover_set : List Nat) :
    List (List (Nat × Nat)) × AGraph :=
  vertex_cover_set.foldl coverStep ([], initVisited G)

/-- A loaded graph with a single edge and no attributes set. -/
def freshEdgeGraph : AGraph :=
  { nodes := [0, 1], edges := [(0, 1)]
  , visitedAttr := fun _ => none, weightAttr := fun _ => none }

/-- Gurobi's `GRB.Callback.MIPNODE` callback code. -/
def GRB_Callback_MIPNODE : Nat := 5

/-- Gurobi's `GRB.OPTIMAL` status code (the `MIPNODE_STATUS` the callback
requires). -/
def GRB_MIPNODE_OPTIMAL : Nat := 2

/-- Data `indep_callback` reads from the optimizer: the `where` code, the
`MIPNODE_STATUS` value, the biclique count `model._k`, and the relaxation
values `y_val[v, j, d]` and `z_val[j]`. -/
structure CallbackInput where
  whereVal : Nat
  mipnodeStatus : Nat
  k : Nat
  y_val : Nat → Nat → Nat → Rat
  z_val : Nat → Rat

/-- The node loop of `indep_callback` for one biclique index `j`:
`for v in model._g.nodes: model._g.nodes[v]["weight"] = y_val[v,j,0] + y_val[v,j,1]`. -/
def setWeights (cb : CallbackInput) (g : AGraph) (j : Nat) : AGraph :=
  { g with weightAttr := fun v =>
      if g.nodes.contains v then some (cb.y_val v j 0 + cb.y_val v j 1) else g.weightAttr v }

/-- One iteration of the callback's biclique loop: writes the weights,
then queries the separation solve `solve_max_weighted_independent_set`
(imported in `model.py` but absent from the sources; modelled as a pure function of
the weighted graph, since its result feeds only the added cut `cbCut` and
never the graph). -/
def callbackStep (cb : CallbackInput) (mwis : AGraph → Rat × List Nat)
    (g : AGraph) (j : Nat) : AGraph :=
  let g1 := setWeights cb g j
  let _ := mwis g1
  g1

/-- Embedding of `indep_callback` (`model.py`): returns the graph object
as left behind by the callback — it returns early (untouched graph)
unless invoked at an optimal MIP node. -/
def indep_callback (G : AGraph) (cb : CallbackInput)
    (mwis : AGraph → Rat × List Nat) : AGraph :=
  if cb.whereVal ≠ GRB_Callback_MIPNODE ∨ cb.mipnodeStatus ≠ GRB_MIPNODE_OPTIMAL then G
  else (List.range cb.k).foldl (callbackStep cb mwis) G

/-- A callback invocation at an optimal MIP node with one biclique. -/
def sampleCallback : CallbackInput :=
  { whereVal := GRB_Callback_MIPNODE, mipnodeStatus := GRB_MIPNODE_OPTIMAL, k := 1
  , y_val := fun _ _ _ => (1 : Rat) / 2, z_val := fun _ => 0 }

/-- A trivial separation oracle. -/
def sampleOracle : AGraph → Rat × List Nat := fun _ => (0, [])

/-- C8 counterexample: running the heuristic cover construction on a
freshly loaded one-edge graph leaves the graph's edge (0,1) carrying
`visited = True`, an attribute absent before the call — the loaded graph
is not immutable under `find_cover`. -/
theorem c8_counterexample :
    ((find_cover freshEdgeGraph [0]).2.getVisited 0 1 = some true) ∧
    freshEdgeGraph.getVisited 0 1 = none := by
  constructor
  · rfl
  · rfl

/-- Fold steps that preserve a state predicate preserve it over `foldl`. -/
theorem foldl_preserves {α β : Type} (f : β → α → β) (P : β → Prop)
    (hstep : ∀ b a, P b → P (f b a)) :
    ∀ (l : List α) (b : β), P b → P (l.foldl f b) := by
  intro l
  induction l with
  | nil => intro b hb; exact hb
  | cons a t ih => intro b hb; exact ih (f b a) (hstep b a hb)

/-- Invariant carried through `find_cover`: node and edge sets match the
input graph and every input edge carries a `visited` attribute. -/
def coverInvariant (G g : AGraph) : Prop :=
  g.nodes = G.nodes ∧ g.edges = G.edges ∧
  ∀ e ∈ G.edges, (g.visitedAttr (edgeKey e.1 e.2)).isSome = true

/-- One attribute write keeps the invariant. -/
theorem setVisited_coverInvariant (G g : AGraph) (u v : Nat) (b : Bool)
    (h : coverInvariant G g) : coverInvariant G (g.setVisited u v b) := by
  obtain ⟨h1, h2, h3⟩ := h
  refine ⟨h1, h2, ?_⟩
  intro e he
  unfold AGraph.setVisited
  dsimp only
  split
  · rfl
  · exact h3 e he

/-- The neighbour-loop body keeps the invariant. -/
theorem visitStep_coverInvariant (G : AGraph) (vertex : Nat)
    (p : List (Nat × Nat) × AGraph) (v : Nat) (h : coverInvariant G p.2) :
    coverInvariant G (visitStep vertex p v).2 := by
  obtain ⟨lst, g⟩ := p
  unfold visitStep
  dsimp only
  split
  · exact setVisited_coverInvariant G g vertex v true h
  · split
    · exact setVisited_coverInvariant G g v vertex true h
    · exact h

/-- The initial `visited = False` loop establishes the invariant. -/
theorem initVisited_coverInvariant (G : AGraph) : coverInvariant G (initVisited G) := by
  refine ⟨rfl, rfl, ?_⟩
  intro e he
  unfold initVisited
  dsimp only
  rw [if_pos]
  · rfl
  · rw [List.any_eq_true]
    exact ⟨e, he, by simp⟩

/-- `find_cover` maintains the invariant end to end. -/
theorem find_cover_coverInvariant (G : AGraph) (vertex_cover_set : List Nat) :
    coverInvariant G (find_cover G vertex_cover_set).2 := by
  unfold find_cover
  refine foldl_preserves coverStep (fun acc => coverInvariant G acc.2) ?_
    vertex_cover_set ([], initVisited G) (initVisited_coverInvariant G)
  intro acc vertex hacc
  unfold coverStep
  exact foldl_preserves (visitStep vertex) (fun p => coverInvariant G p.2)
    (fun p v hp => visitStep_coverInvariant G vertex p v hp)
    (acc.2.neighbors vertex) ([], acc.2) hacc

/-- The callback loop never touches node or edge lists. -/
theorem foldl_callbackStep_preserves (cb : CallbackInput)
    (mwis : AGraph → Rat × List Nat) (js : List Nat) (g : AGraph) :
    (js.foldl (callbackStep cb mwis) g).nodes = g.nodes ∧
    (js.foldl (callbackStep cb mwis) g).edges = g.edges := by
  refine foldl_preserves (callbackStep cb mwis)
    (fun h => h.nodes = g.nodes ∧ h.edges = g.edges) ?_ js g ⟨rfl, rfl⟩
  intro h j hh
  exact hh

/-- The callback loop's final weights come from its last iteration. -/
theorem foldl_callbackStep_weight (cb : CallbackInput)
    (mwis : AGraph → Rat × List Nat) :
    ∀ (js : List Nat) (jl : Nat), js.getLast? = some jl →
      ∀ (g : AGraph), ∀ v ∈ g.nodes,
        (js.foldl (callbackStep cb mwis) g).weightAttr v =
          some (cb.y_val v jl 0 + cb.y_val v jl 1) := by
  intro js
  induction js with
  | nil => intro jl hlast; exact absurd hlast (by simp)
  | cons j t ih =>
    intro jl hlast g v hv
    cases t with
    | nil =>
      have hj : jl = j := by simpa using hlast.symm
      subst hj
      show (callbackStep cb mwis g jl).weightAttr v = _
      unfold callbackStep setWeights
      dsimp only
      rw [if_pos (by simpa using hv)]
    | cons j2 t2 =>
      have hlast2 : (j2 :: t2).getLast? = some jl := by
        rw [List.getLast?_cons_cons] at hlast
        exact hlast
      rw [List.foldl_cons]
      exact ih jl hlast2 (callbackStep cb mwis g j) v hv

/-- C8 (amended): `find_cover` and `indep_callback` leave the loaded
graph's node set and edge set unchanged, but mutate its attribute
dictionaries: `find_cover` leaves a `visited` flag on every edge of the
input graph, and `indep_callback` — when fired at an optimal MIP node
with at least one biclique — leaves a `weight` value on every node (the
final value coming from its last biclique iteration). -/
theorem c8_amended :
    (∀ (G : AGraph) (vertex_cover_set : List Nat),
      (find_cover G vertex_cover_set).2.nodes = G.nodes ∧
      (find_cover G vertex_cover_set).2.edges = G.edges) ∧
    (∀ (G : AGraph) (vertex_cover_set : List Nat),
      ∀ e ∈ G.edges,
        ((find_cover G vertex_cover_set).2.visitedAttr (edgeKey e.1 e.2)).isSome = true) ∧
    (∀ (G : AGraph) (cb : CallbackInput) (mwis : AGraph → Rat × List Nat),
      (indep_callback G cb mwis).nodes = G.nodes ∧
      (indep_callback G cb mwis).edges = G.edges) ∧
    (∀ (G : AGraph) (cb : CallbackInput) (mwis : AGraph → Rat × List Nat),
      cb.whereVal = GRB_Callback_MIPNODE → cb.mipnodeStatus = GRB_MIPNODE_OPTIMAL →
      0 < cb.k → ∀ v ∈ G.nodes,
        (indep_callback G cb mwis).weightAttr v =
          some (cb.y_val v (cb.k - 1) 0 + cb.y_val v (cb.k - 1) 1)) := by
  refine ⟨?_, ?_, ?_, ?_⟩
  · intro G vertex_cover_set
    exact ⟨(find_cover_coverInvariant G vertex_cover_set).1,
           (find_cover_coverInvariant G vertex_cover_set).2.1⟩
  · intro G vertex_cover_set
    exact (find_cover_coverInvariant G vertex_cover_set).2.2
  · intro G cb mwis
    unfold indep_callback
    split
    · exact ⟨rfl, rfl⟩
    · exact foldl_callbackStep_preserves cb mwis (List.range cb.k) G
  · intro G cb mwis h1 h2 hk v hv
    unfold indep_callback
    rw [if_neg (by simp [h1, h2])]
    have hlast : (List.range cb.k).getLast? = some (cb.k - 1) := by
      rcases Nat.exists_eq_succ_of_ne_zero (Nat.pos_iff_ne_zero.mp hk) with ⟨m, hm⟩
      rw [hm, List.range_succ, List.getLast?_concat]
      simp
    exact foldl_callbackStep_weight cb mwis (List.range cb.k) (cb.k - 1) hlast G v hv

/-- C8 amended-theorem witness: on the fresh one-edge graph, `find_cover`
leaves the single edge with a `visited` attribute, and a fired callback
with one biclique leaves node 0 weighted. -/
theorem c8_amended_witness :
    ((find_cover freshEdgeGraph [0]).2.visitedAttr (edgeKey (0, 1).1 (0, 1).2)).isSome = true ∧
    (indep_callback freshEdgeGraph sampleCallback sampleOracle).weightAttr 0 =
      some (sampleCallback.y_val 0 (sampleCallback.k - 1) 0 +
            sampleCallback.y_val 0 (sampleCallback.k - 1) 1) :=
  ⟨c8_amended.2.1 freshEdgeGraph [0] (0, 1) (by decide),
   c8_amended.2.2.2 freshEdgeGraph sampleCallback sampleOracle rfl rfl (by decide) 0 (by decide)⟩

/-! ## C7: error reporting in `MBCModel.solve` / `MBCModel._post_solve`

The optimizer is external; a solve is embedded by its outcome (the Gurobi
status code and incumbent objective).  `solve` calls `m.optimize()` exactly
once, then `_post_solve` writes one status-dependent record to the result
log when logging is enabled, and the method returns `None` unless the
status is `GRB.OPTIMAL`.  There is no retry path in the code. -/

/-- Gurobi status codes distinguished by `_post_solve`. -/
inductive GrbStatus where
  | OPTIMAL
  | TIME_LIMIT
  | INFEASIBLE
  | other (code : Nat)
deriving DecidableEq, Repr

/-- Outcome handed back by the external optimizer. -/
structure SolveOutcome where
  status : GrbStatus
  objVal : Int

/-- Embedding of `MBCModel._post_solve` (`base_model.py`): the lines
written to the result log, empty when logging is disabled. -/
def post_solve_log (logging : Bool) (o : SolveOutcome) (isCover : Bool)
    (timeLimit : Nat) : List String :=
  if !logging then []
  else
    match o.status with
    | .OPTIMAL =>
        ["IS BICLIQUE COVER? " ++ (if isCover then "Y" else "N"),
         "BICLIQUE COVER DATAFRAME"]
    | .TIME_LIMIT => ["MODEL REACHED TIME LIMIT OF " ++ toString timeLimit ++ " SECONDS"]
    | .INFEASIBLE => ["MODEL HAS BEEN MARKED AS UNFEASIBLE"]
    | .other c => ["STATUS CODE: " ++ toString c]

/-- Trace of one `MBCModel.solve` call: how often the optimizer ran, the
returned value (`none` models Python's `None`) and the result-log lines. -/
structure SolveTrace where
  optimizeCalls : Nat
  result : Option Int
  logLines : List String

/-- Embedding of `MBCModel.solve` (`base_model.py`): one `m.optimize()`
call, `_post_solve`, then `None` unless the status is `GRB.OPTIMAL`. -/
def solveMBC (o : SolveOutcome) (logging : Bool) (isCover : Bool)
    (timeLimit : Nat) : SolveTrace :=
  { optimizeCalls := 1
  , result := if o.status = .OPTIMAL then some o.objVal else none
  , logLines := post_solve_log logging o isCover timeLimit }

/-- C7: for every solve whose status is not optimal (infeasibility,
time limit, or an unexpected status), `MBCModel.solve` returns `None`
instead of an objective value, the status is recorded in the result log
whenever logging is enabled, and the optimizer is invoked exactly once
(no retry). -/
theorem c7_solve_reports_errors (o : SolveOutcome) (logging isCover : Bool)
    (timeLimit : Nat) (h : o.status ≠ .OPTIMAL) :
    (solveMBC o logging isCover timeLimit).result = none ∧
    (solveMBC o logging isCover timeLimit).optimizeCalls = 1 ∧
    (logging = true →
      (solveMBC o logging isCover timeLimit).logLines =
        post_solve_log true o isCover timeLimit ∧
      post_solve_log true o isCover timeLimit ≠ []) := by
  refine ⟨?_, rfl, ?_⟩
  · simp [solveMBC, h]
  · intro hlog
    subst hlog
    refine ⟨rfl, ?_⟩
    unfold post_solve_log
    cases o.status <;> simp

/-- C7 witness: a time-limited solve with logging enabled returns `None`,
logs the time-limit record, and ran the optimizer once. -/
theorem c7_witness :
    (solveMBC ⟨.TIME_LIMIT, 5⟩ true true 3600).result = none ∧
    (solveMBC ⟨.TIME_LIMIT, 5⟩ true true 3600).optimizeCalls = 1 ∧
    (true = true →
      (solveMBC ⟨.TIME_LIMIT, 5⟩ true true 3600).logLines =
        post_solve_log true ⟨.TIME_LIMIT, 5⟩ true 3600 ∧
      post_solve_log true ⟨.TIME_LIMIT, 5⟩ true 3600 ≠ []) :=
  c7_solve_reports_errors ⟨.TIME_LIMIT, 5⟩ true true 3600 (by decide)

/-! ## C4: monotonicity of the vertex-cover upper bound (`bc_bounds.py`)

`get_vertex_cover_solution` assembles the integer program
`min Σ x_v  s.t.  x_u + x_v ≥ 1 for every edge, x binary over g.nodes`
and hands it to the external solver; the solver is modelled as returning
the exact optimum of that program, i.e. the minimum size of a vertex
cover drawn from `g.nodes`. -/

/-- Feasible points of the vertex-cover integer program: subsets of the
node set touching every edge. -/
def coverCandidates (V : Finset Nat) (E : List (Nat × Nat)) : Finset (Finset Nat) :=
  V.powerset.filter (fun S => ∀ e ∈ E, e.1 ∈ S ∨ e.2 ∈ S)

/-- Embedding of `vertex_cover` / `get_vertex_cover_solution`
(`bc_bounds.py`), with the external solve modelled as the exact optimum:
the least cardinality of a feasible cover (0 when the program would be
infeasible, which cannot happen when the edges' endpoints are nodes). -/
def vertex_cover (V : Finset Nat) (E : List (Nat × Nat)) : Nat :=
  (((coverCandidates V E).image Finset.card).min).untop' 0

/-- Embedding of the `UBComputeMethod.VERTEX` branch of
`find_bc_upper_bound` (`bc_bounds.py`): it returns `vertex_cover(g)`. -/
def find_bc_upper_bound_vertex (g : Graph) : Nat :=
  vertex_cover g.nodes.toFinset g.edges

/-- The node set itself is feasible when all endpoints are nodes. -/
theorem coverCandidates_nonempty (V : Finset Nat) (E : List (Nat × Nat))
    (hV : ∀ e ∈ E, e.1 ∈ V ∧ e.2 ∈ V) : (coverCandidates V E).Nonempty := by
  refine ⟨V, ?_⟩
  unfold coverCandidates
  rw [Finset.mem_filter]
  exact ⟨Finset.mem_powerset_self V, fun e he => Or.inl (hV e he).1⟩

/-- On a nonempty candidate set, `vertex_cover` is the attained minimum. -/
theorem vertex_cover_eq_min' (V : Finset Nat) (E : List (Nat × Nat))
    (h : (coverCandidates V E).Nonempty) :
    vertex_cover V E = ((coverCandidates V E).image Finset.card).min' (h.image _) := by
  unfold vertex_cover
  rw [← Finset.coe_min' (h.image Finset.card)]
  exact WithTop.untop'_coe 0 _

/-- C4: with a fixed vertex set, the vertex-cover-based upper bound is
monotone in the edge set: removing edges cannot increase it.  Hypotheses:
the two graphs share their node set, each edge of `g1` occurs in `g2` (in
either orientation), and `g2`'s edges run between nodes. -/
theorem c4_vertex_ub_monotone (g1 g2 : Graph)
    (hnodes : g1.nodes.toFinset = g2.nodes.toFinset)
    (hsub : ∀ e ∈ g1.edges, e ∈ g2.edges ∨ (e.2, e.1) ∈ g2.edges)
    (hend : ∀ e ∈ g2.edges, e.1 ∈ g2.nodes.toFinset ∧ e.2 ∈ g2.nodes.toFinset) :
    find_bc_upper_bound_vertex g1 ≤ find_bc_upper_bound_vertex g2 := by
  unfold find_bc_upper_bound_vertex
  rw [hnodes]
  set V := g2.nodes.toFinset with hv
  have h2 : (coverCandidates V g2.edges).Nonempty := coverCandidates_nonempty V g2.edges hend
  have h1 : (coverCandidates V g1.edges).Nonempty := by
    obtain ⟨S, hS⟩ := h2
    unfold coverCandidates at hS ⊢
    rw [Finset.mem_filter] at hS
    refine ⟨S, ?_⟩
    rw [Finset.mem_filter]
    refine ⟨hS.1, fun e he => ?_⟩
    rcases hsub e he with h | h
    · exact hS.2 e h
    · exact (hS.2 _ h).symm
  rw [vertex_cover_eq_min' V g1.edges h1, vertex_cover_eq_min' V g2.edges h2]
  have hmem := Finset.min'_mem _ ((h2.image Finset.card))
  rw [Finset.mem_image] at hmem
  obtain ⟨S, hS, hcard⟩ := hmem
  have hS1 : S ∈ coverCandidates V g1.edges := by
    unfold coverCandidates at hS ⊢
    rw [Finset.mem_filter] at hS
    rw [Finset.mem_filter]
    refine ⟨hS.1, fun e he => ?_⟩
    rcases hsub e he with h | h
    · exact hS.2 e h
    · exact (hS.2 _ h).symm
  calc ((coverCandidates V g1.edges).image Finset.card).min' _
      ≤ S.card := Finset.min'_le _ _ (Finset.mem_image_of_mem Finset.card hS1)
    _ = _ := hcard

/-- C4 witness: dropping edge (1,2) from the path 0-1-2 (leaving the single
edge (0,1)) does not increase the vertex-cover bound. -/
theorem c4_witness :
    find_bc_upper_bound_vertex { nodes := [0, 1, 2], edges := [(0, 1)] } ≤
    find_bc_upper_bound_vertex { nodes := [0, 1, 2], edges := [(0, 1), (1, 2)] } :=
  c4_vertex_ub_monotone
    { nodes := [0, 1, 2], edges := [(0, 1)] }
    { nodes := [0, 1, 2], edges := [(0, 1), (1, 2)] }
    (by decide) (by decide) (by decide)

/-! ## C10: `GraphReport` rectangularity (`util.py`)

The report state is the `_data` column dictionary (insertion-ordered
association list, values embedded as naturals — only lengths matter), the
`_props` fill flags, `_finished_setup` and `_rows`.  Each method returns
the raised exception (if any) together with the state as left behind
(Python mutates in place even when it then raises). -/

/-- State of a `GraphReport` object. -/
structure GraphReport where
  data : List (String × List Nat)
  props : List (String × Bool)
  finishedSetup : Bool
  rows : Nat
deriving Repr, DecidableEq

/-- A fresh report: the three built-in columns, no declared properties. -/
def initReport : GraphReport :=
  { data := [("graph", []), ("n_nodes", []), ("n_edges", [])]
  , props := [], finishedSetup := false, rows := 0 }

/-- Column names of the report (`self._data.keys()`). -/
def dataKeys (r : GraphReport) : List String := r.data.map Prod.fst

/-- Append to one column of the dictionary. -/
def updData (d : List (String × List Nat)) (k : String) (x : Nat) :
    List (String × List Nat) :=
  d.map (fun p => if p.1 = k then (p.1, p.2 ++ [x]) else p)

/-- Embedding of `GraphReport._add_property`: no-op on repeated names,
otherwise adds the empty column (plus its time column when requested),
registers the unfilled flag and resets `_rows`. -/
def add_property_single (r : GraphReport) (pName : String) (addTime : Bool) :
    GraphReport :=
  if (r.props.map Prod.fst).contains pName then r
  else
    let d1 := r.data ++ [(pName, [])]
    let d2 := if addTime then d1 ++ [(pName ++ "_time", [])] else d1
    { r with data := d2, props := r.props ++ [(pName, false)], rows := 0 }

/-- Embedding of `GraphReport.add_property`: `RuntimeError` after the
property definition phase has ended. -/
def add_property (r : GraphReport) (pName : String) (addTime : Bool) :
    Except String Unit × GraphReport :=
  if r.finishedSetup then
    (.error "RuntimeError: Property definition phase already ended.", r)
  else (.ok (), add_property_single r pName addTime)

/-- `all(self._props.values())`. -/
def allPropsFilled (r : GraphReport) : Bool := r.props.all (fun p => p.2)

/-- Embedding of `GraphReport._reset_props`. -/
def resetProps (r : GraphReport) : GraphReport :=
  { r with props := r.props.map (fun p => (p.1, false)) }

/-- Embedding of `GraphReport.add_graph_data` (graph name embedded as a
numeral): `RuntimeError` when a previous row exists with an unfilled
property, otherwise starts the next row and appends the graph columns. -/
def add_graph_data (r : GraphReport) (gName nNodes nEdges : Nat) :
    Except String Unit × GraphReport :=
  if r.finishedSetup ∧ ¬ allPropsFilled r then
    (.error "RuntimeError: Not all properties have been filled.", r)
  else
    let r1 := if r.finishedSetup then resetProps { r with rows := r.rows + 1 } else r
    let r2 := { r1 with
                finishedSetup := true,
                data := updData (updData (updData r1.data "graph" gName)
                  "n_nodes" nNodes) "n_edges" nEdges }
    (.ok (), r2)

/-- `self._props[p_name] = True`: updates the flag, adding the key when it
was absent (Python dict assignment). -/
def setPropFilled (r : GraphReport) (pName : String) : GraphReport :=
  if (r.props.map Prod.fst).contains pName then
    { r with props := r.props.map (fun q => if q.1 = pName then (q.1, true) else q) }
  else { r with props := r.props ++ [(pName, true)] }

/-- Embedding of `GraphReport.add_property_values`: `RuntimeError` before
setup ends, `ValueError` for a column name not in `_data`; the value is
appended before the time column is touched, so a missing time column
(`KeyError`) or a missing required time value (`ValueError`) leaves the
value appended but the flag unset, exactly as in the source. -/
def add_property_values (r : GraphReport) (pName : String) (pValue : Nat)
    (pTime : Option Nat) : Except String Unit × GraphReport :=
  if ¬ r.finishedSetup then
    (.error "RuntimeError: Property definition has not ended yet.", r)
  else if ¬ (dataKeys r).contains pName then
    (.error "ValueError: Property not defined.", r)
  else
    let r1 := { r with data := updData r.data pName pValue }
    match pTime with
    | some t =>
      if (dataKeys r1).contains (pName ++ "_time") then
        (.ok (), setPropFilled { r1 with data := updData r1.data (pName ++ "_time") t } pName)
      else (.error "KeyError", r1)
    | none =>
      if (r.props.map Prod.fst).contains (pName ++ "_time") then
        (.error "ValueError: property requires corresponding time.", r1)
      else (.ok (), setPropFilled r1 pName)

/-- All columns of the dictionary share one length. -/
def allSameLength (d : List (String × List Nat)) : Bool :=
  match d with
  | [] => true
  | c :: rest => rest.all (fun p => p.2.length == c.2.length)

/-- Modelled from pandas: `DataFrame(data=dict_of_lists)` raises
`ValueError` unless every list has the same length, otherwise holds
exactly those columns. -/
def DataFrameOf (d : List (String × List Nat)) :
    Except String (List (String × List Nat)) :=
  if allSameLength d then .ok d
  else .error "ValueError: All arrays must be of the same length."

/-- Embedding of `GraphReport.get_report_data`: `RuntimeError` when no
data was added or some property is unfilled, otherwise the constructed
dataframe. -/
def get_report_data (r : GraphReport) : Except String (List (String × List Nat)) :=
  if ¬ r.finishedSetup ∨ r.data.isEmpty then
    .error "RuntimeError: No data to save."
  else if ¬ allPropsFilled r then
    .error "RuntimeError: Not all properties have been filled."
  else DataFrameOf r.data

/-- C10: the report keeps its rows rectangular — `add_graph_data` raises
`RuntimeError` whenever a property of the previous row is unfilled,
`add_property_values` raises for a column name absent from the report,
and whenever `get_report_data` returns a dataframe all of its columns
hold the same number of values. -/
theorem c10_report_rectangular :
    (∀ (r : GraphReport) (gName nNodes nEdges : Nat),
      r.finishedSetup = true → allPropsFilled r = false →
      (add_graph_data r gName nNodes nEdges).1 =
        .error "RuntimeError: Not all properties have been filled.") ∧
    (∀ (r : GraphReport) (pName : String) (pValue : Nat) (pTime : Option Nat),
      (dataKeys r).contains pName = false →
      ∃ msg, (add_property_values r pName pValue pTime).1 = .error msg) ∧
    (∀ (r : GraphReport) (df : List (String × List Nat)),
      get_report_data r = .ok df →
      ∀ c1 ∈ df, ∀ c2 ∈ df, c1.2.length = c2.2.length) := by
  refine ⟨?_, ?_, ?_⟩
  · intro r gName nNodes nEdges hfin hfill
    unfold add_graph_data
    rw [if_pos ⟨hfin, by simp [hfill]⟩]
  · intro r pName pValue pTime hkey
    unfold add_property_values
    by_cases hfin : r.finishedSetup = true
    · refine ⟨"ValueError: Property not defined.", ?_⟩
      have hmem : pName ∉ dataKeys r := by simpa using hkey
      simp [hfin, hmem]
    · refine ⟨"RuntimeError: Property definition has not ended yet.", ?_⟩
      simp [hfin]
  · intro r df hok c1 hc1 c2 hc2
    unfold get_report_data at hok
    split at hok
    · exact absurd hok (by simp)
    · split at hok
      · exact absurd hok (by simp)
      · unfold DataFrameOf at hok
        split at hok
        · next hlen =>
          rw [Except.ok.injEq] at hok
          subst hok
          cases hd : r.data with
          | nil => rw [hd] at hc1; exact absurd hc1 (List.not_mem_nil c1)
          | cons hdp t =>
            rw [hd] at hlen hc1 hc2
            unfold allSameLength at hlen
            have hall := List.all_eq_true.mp hlen
            have len1 : c1.2.length = hdp.2.length := by
              rcases List.mem_cons.mp hc1 with h | h
              · rw [h]
              · simpa using hall c1 h
            have len2 : c2.2.length = hdp.2.length := by
              rcases List.mem_cons.mp hc2 with h | h
              · rw [h]
              · simpa using hall c2 h
            rw [len1, len2]
        · exact absurd hok (by simp)

/-- C10 witness: concrete instantiations of all three parts — a report
with an unfilled property rejects new graph data, an undeclared column is
rejected, and the dataframe of a filled one-row report is rectangular. -/
theorem c10_witness :
    ((add_graph_data { data := [("graph", [7]), ("n_nodes", [2]), ("n_edges", [1]), ("p", [])]
                     , props := [("p", false)], finishedSetup := true, rows := 0 } 8 3 2).1 =
      .error "RuntimeError: Not all properties have been filled.") ∧
    (∃ msg, (add_property_values initReport "q" 5 none).1 = .error msg) ∧
    (∀ c1 ∈ [("graph", [7]), ("n_nodes", [2]), ("n_edges", [1])],
      ∀ c2 ∈ [("graph", [7]), ("n_nodes", [2]), ("n_edges", [1])],
        (c1 : String × List Nat).2.length = c2.2.length) :=
  ⟨c10_report_rectangular.1 _ 8 3 2 rfl rfl,
   c10_report_rectangular.2.1 initReport "q" 5 none (by decide),
   c10_report_rectangular.2.2
     { data := [("graph", [7]), ("n_nodes", [2]), ("n_edges", [1])],
       props := [], finishedSetup := true, rows := 0 } _ rfl⟩

/-! ## C6: configuration validation (`util.py`, `config.py`)

Configuration files are embedded as already-decoded JSON values (the JSON
text decoding happens before any of the validated parsing; a JSON syntax
error aborts both readers alike and is outside these definitions).
Validation errors are embedded as `Except.error`.  `read_run_config_file`
wraps `pydantic.parse_obj_as` in `try/except ValidationError`, prints the
error messages and falls through, returning `None`;
`read_report_config_file` calls `ReportConfig.model_validate_json` with no
handler, so the `ValidationError` escapes. -/

/-- A decoded JSON value. -/
inductive JVal where
  | str (s : String)
  | num (n : Int)
  | boolean (b : Bool)
  | null
  | arr (items : List JVal)
  | obj (fields : List (String × JVal))
deriving Repr

/-- Field lookup in a JSON object (`none` when absent). -/
def JVal.get? (j : JVal) (k : String) : Option JVal :=
  match j with
  | .obj fields => (fields.find? (fun p => p.1 == k)).map Prod.snd
  | _ => none

/-- Embedding of `util.RunConfig`: `graph` and `model` are required
strings, the bound-method names default to fixed strings. -/
structure RunConfig where
  graph : String
  model : String
  lb_method : String
  ub_method : String
deriving Repr, DecidableEq

/-- A required string field of a pydantic model. -/
def requiredStr (j : JVal) (k : String) : Except String String :=
  match j.get? k with
  | some (.str s) => .ok s
  | some _ => .error ("ValidationError: field " ++ k ++ " must be a string")
  | none => .error ("ValidationError: field " ++ k ++ " is required")

/-- An optional string field with a default value. -/
def optionalStr (j : JVal) (k : String) (dflt : String) : Except String String :=
  match j.get? k with
  | some (.str s) => .ok s
  | some _ => .error ("ValidationError: field " ++ k ++ " must be a string")
  | none => .ok dflt

/-- Validation of one `util.RunConfig` object. -/
def parseRunConfig (j : JVal) : Except String RunConfig :=
  match j with
  | .obj _ => do
    let graph ← requiredStr j "graph"
    let model ← requiredStr j "model"
    let lb ← optionalStr j "lb_method" "INDEPENDENT_EDGES"
    let ub ← optionalStr j "ub_method" "VERTEX"
    .ok { graph := graph, model := model, lb_method := lb, ub_method := ub }
  | _ => .error "ValidationError: expected an object"

/-- Validation of a list of `util.RunConfig` objects. -/
def parseRunConfigList (items : List JVal) : Except String (List RunConfig) :=
  match items with
  | [] => .ok []
  | j :: rest => do
    let c ← parseRunConfig j
    let cs ← parseRunConfigList rest
    .ok (c :: cs)

/-- Embedding of `pydantic.parse_obj_as(list[RunConfig], data)`. -/
def parse_obj_as_run_configs (j : JVal) : Except String (List RunConfig) :=
  match j with
  | .arr items => parseRunConfigList items
  | _ => .error "ValidationError: expected a list"

/-- Embedding of `read_run_config_file` (`util.py`): the
`ValidationError` is caught, its messages printed, and the function falls
through — returning `None` (embedded as `none`) instead of raising. -/
def read_run_config_file (j : JVal) : Option (List RunConfig) :=
  match parse_obj_as_run_configs j with
  | .ok cs => some cs
  | .error _ => none

/-- Embedding of `config.RunConfig` (pydantic model with optional
toggles); method names are validated against the enum values. -/
structure RunConfigC where
  name : Option String
  graph : String
  model : String
  lb_method : Option String
  ub_method : Option String
  edge_fix : Option Bool
  bottom_up : Option Bool
  warm_start : Option Bool
  use_callback : Option Bool
  conflict_inequalities : Option Bool
  common_neighbor_inequalities : Option Bool
  time_limit : Option Int
deriving Repr, DecidableEq

/-- The values of `LBComputeMethod`. -/
def lbMethodValues : List String :=
  ["match", "lovasz", "clique", "independent_edges", "maximal_independent_set"]

/-- The values of `UBComputeMethod`. -/
def ubMethodValues : List String := ["number", "vertex", "merge_stars"]

/-- An optional enum-valued field: absent gives the default, `null` gives
`None`, a member string is accepted, anything else fails validation. -/
def optionalEnum (j : JVal) (k : String) (values : List String)
    (dflt : Option String) : Except String (Option String) :=
  match j.get? k with
  | some (.str s) =>
    if values.contains s then .ok (some s)
    else .error ("ValidationError: field " ++ k ++ " is not a valid enumeration member")
  | some .null => .ok none
  | some _ => .error ("ValidationError: field " ++ k ++ " is not a valid enumeration member")
  | none => .ok dflt

/-- An optional boolean field (default `None` unless stated). -/
def optionalBool (j : JVal) (k : String) (dflt : Option Bool) :
    Except String (Option Bool) :=
  match j.get? k with
  | some (.boolean b) => .ok (some b)
  | some .null => .ok none
  | some _ => .error ("ValidationError: field " ++ k ++ " must be a boolean")
  | none => .ok dflt

/-- An optional integer field (default `None` unless stated). -/
def optionalInt (j : JVal) (k : String) (dflt : Option Int) :
    Except String (Option Int) :=
  match j.get? k with
  | some (.num n) => .ok (some n)
  | some .null => .ok none
  | some _ => .error ("ValidationError: field " ++ k ++ " must be an integer")
  | none => .ok dflt

/-- An optional string field whose default is `None`. -/
def optionalStrOrNone (j : JVal) (k : String) : Except String (Option String) :=
  match j.get? k with
  | some (.str s) => .ok (some s)
  | some .null => .ok none
  | some _ => .error ("ValidationError: field " ++ k ++ " must be a string")
  | none => .ok none

/-- Validation of one `config.RunConfig` object. -/
def parseRunConfigC (j : JVal) : Except String RunConfigC :=
  match j with
  | .obj _ => do
    let name ← optionalStrOrNone j "name"
    let graph ← requiredStr j "graph"
    let model ← requiredStr j "model"
    let lb ← optionalEnum j "lb_method" lbMethodValues (some "independent_edges")
    let ub ← optionalEnum j "ub_method" ubMethodValues (some "vertex")
    let ef ← optionalBool j "edge_fix" none
    let bu ← optionalBool j "bottom_up" none
    let ws ← optionalBool j "warm_start" none
    let uc ← optionalBool j "use_callback" none
    let ci ← optionalBool j "conflict_inequalities" none
    let cn ← optionalBool j "common_neighbor_inequalities" none
    let tl ← optionalInt j "time_limit" none
    .ok { name := name, graph := graph, model := model, lb_method := lb, ub_method := ub,
          edge_fix := ef, bottom_up := bu, warm_start := ws, use_callback := uc,
          conflict_inequalities := ci, common_neighbor_inequalities := cn, time_limit := tl }
  | _ => .error "ValidationError: expected an object"

/-- Validation of the `run_configs` list. -/
def parseRunConfigCList (items : List JVal) : Except String (List RunConfigC) :=
  match items with
  | [] => .ok []
  | j :: rest => do
    let c ← parseRunConfigC j
    let cs ← parseRunConfigCList rest
    .ok (c :: cs)

/-- Embedding of `config.ReportConfig`. -/
structure ReportConfig where
  report_name : String
  default_lb_method : String
  default_ub_method : String
  default_edge_fix : Bool
  default_warm_start : Bool
  default_bottom_up : Bool
  default_use_callback : Bool
  default_conflict_inequalities : Bool
  default_common_neighbor_inequalities : Bool
  default_time_limit : Option Int
  run_configs : List RunConfigC
  create_log_files : Bool
deriving Repr, DecidableEq

/-- A boolean field with a concrete default. -/
def boolWithDefault (j : JVal) (k : String) (dflt : Bool) : Except String Bool :=
  match j.get? k with
  | some (.boolean b) => .ok b
  | some _ => .error ("ValidationError: field " ++ k ++ " must be a boolean")
  | none => .ok dflt

/-- Embedding of `ReportConfig.model_validate_json` (after decoding). -/
def parseReportConfig (j : JVal) : Except String ReportConfig :=
  match j with
  | .obj _ => do
    let rname ← requiredStr j "report_name"
    let dlb ← optionalEnum j "default_lb_method" lbMethodValues (some "independent_edges")
    let dub ← optionalEnum j "default_ub_method" ubMethodValues (some "vertex")
    let dlb ← match dlb with
              | some s => Except.ok s
              | none => Except.error "ValidationError: default_lb_method may not be null"
    let dub ← match dub with
              | some s => Except.ok s
              | none => Except.error "ValidationError: default_ub_method may not be null"
    let def_ef ← boolWithDefault j "default_edge_fix" false
    let def_ws ← boolWithDefault j "default_warm_start" false
    let def_bu ← boolWithDefault j "default_bottom_up" false
    let def_uc ← boolWithDefault j "default_use_callback" false
    let def_ci ← boolWithDefault j "default_conflict_inequalities" false
    let def_cn ← boolWithDefault j "default_common_neighbor_inequalities" false
    let def_tl ← optionalInt j "default_time_limit" (some 3600)
    let rcs ← match j.get? "run_configs" with
              | some (.arr items) => parseRunConfigCList items
              | some _ => Except.error "ValidationError: run_configs must be a list"
              | none => Except.error "ValidationError: field run_configs is required"
    let clf ← boolWithDefault j "create_log_files" false
    .ok { report_name := rname, default_lb_method := dlb, default_ub_method := dub,
          default_edge_fix := def_ef, default_warm_start := def_ws,
          default_bottom_up := def_bu, default_use_callback := def_uc,
          default_conflict_inequalities := def_ci,
          default_common_neighbor_inequalities := def_cn,
          default_time_limit := def_tl, run_configs := rcs, create_log_files := clf }
  | _ => .error "ValidationError: expected an object"

/-- The default-filling loop of `read_report_config_file` (`config.py`). -/
def applyDefaults (c : ReportConfig) : ReportConfig :=
  { c with run_configs := c.run_configs.map (fun run =>
      { run with
        lb_method := some (run.lb_method.getD c.default_lb_method),
        ub_method := some (run.ub_method.getD c.default_ub_method),
        edge_fix := some (run.edge_fix.getD c.default_edge_fix),
        warm_start := some (run.warm_start.getD c.default_warm_start),
        bottom_up := some (run.bottom_up.getD c.default_bottom_up),
        use_callback := some (run.use_callback.getD c.default_use_callback),
        conflict_inequalities :=
          some (run.conflict_inequalities.getD c.default_conflict_inequalities),
        common_neighbor_inequalities :=
          some (run.common_neighbor_inequalities.getD c.default_common_neighbor_inequalities),
        time_limit := match run.time_limit with
                      | some t => some t
                      | none => c.default_time_limit }) }

/-- Embedding of `read_report_config_file` (`config.py`): the validation
error propagates (the run aborts); on success the per-run defaults are
filled in. -/
def read_report_config_file (j : JVal) : Except String ReportConfig :=
  match parseReportConfig j with
  | .ok c => .ok (applyDefaults c)
  | .error e => .error e

/-- C6 counterexample: the malformed run configuration `[{}]` (one entry
missing its required fields) fails validation, yet `read_run_config_file`
catches the error and returns `None` — it neither raises nor aborts. -/
theorem c6_counterexample :
    parse_obj_as_run_configs (.arr [.obj []]) =
      .error "ValidationError: field graph is required" ∧
    read_run_config_file (.arr [.obj []]) = none := by
  constructor
  · rfl
  · rfl

/-- C6 (amended): `read_report_config_file` propagates the validation
error of a malformed report configuration (the run aborts), while
`read_run_config_file` catches its validation error, prints it, and
returns `None` — a value — for every malformed run configuration. -/
theorem c6_amended (j : JVal) :
    (read_run_config_file j = none ↔ ∃ e, parse_obj_as_run_configs j = .error e) ∧
    (∀ e, parseReportConfig j = .error e → read_report_config_file j = .error e) := by
  constructor
  · unfold read_run_config_file
    cases h : parse_obj_as_run_configs j with
    | ok cs => simp
    | error e => simp
  · intro e he
    unfold read_report_config_file
    rw [he]

/-- C6 amended-theorem witness: instantiation at the malformed input
`[{}]` (for the run reader) and `{}` (for the report reader, where the
required `report_name` is missing). -/
theorem c6_amended_witness :
    (read_run_config_file (.arr [.obj []]) = none ↔
      ∃ e, parse_obj_as_run_configs (.arr [.obj []]) = .error e) ∧
    read_report_config_file (.obj []) =
      .error "ValidationError: field report_name is required" :=
  ⟨(c6_amended (.arr [.obj []])).1,
   (c6_amended (.obj [])).2 "ValidationError: field report_name is required" rfl⟩

/-! ## The graph file store (`util.py`): save / load round trip and the
edge-list text loader

File names are embedded as character lists, a stored file as its name,
its content and whether the path is a regular file.  GML serialisation is
modelled from `networkx.write_gml` / `read_gml(label='id')`: nodes are
written with consecutive ids `0 .. n-1` in node order and edges as id
pairs, and reading with `label='id'` yields the graph on those ids. -/

/-- The decimal digit characters, used to render counts into file names. -/
def digitChar10 (d : Nat) : Char :=
  if d = 0 then '0' else if d = 1 then '1' else if d = 2 then '2'
  else if d = 3 then '3' else if d = 4 then '4' else if d = 5 then '5'
  else if d = 6 then '6' else if d = 7 then '7' else if d = 8 then '8' else '9'

/-- Decimal rendering of a natural number (with fuel; `natChars` supplies
enough). -/
def natCharsAux : Nat → Nat → List Char
  | 0, _ => []
  | fuel + 1, n =>
    if n < 10 then [digitChar10 n]
    else natCharsAux fuel (n / 10) ++ [digitChar10 (n % 10)]

/-- Embedding of Python's `str(n)` for a natural number. -/
def natChars (n : Nat) : List Char := natCharsAux (n + 1) n

/-- Embedding of the GML bytes `networkx.write_gml` produces, up to the
data the loader consumes: the node count (nodes carry ids `0 .. n-1` in
node order) and the edges as id pairs. -/
structure GmlDoc where
  n : Nat
  edgeIds : List (Nat × Nat)
deriving Repr, DecidableEq

/-- `networkx.write_gml`: node `u` receives id `g.nodes.indexOf u`. -/
def writeGml (g : Graph) : GmlDoc :=
  { n := g.nodes.length
  , edgeIds := g.edges.map (fun e => (g.nodes.indexOf e.1, g.nodes.indexOf e.2)) }

/-- `networkx.read_gml(·, label='id')`: the graph on the written ids. -/
def readGml (d : GmlDoc) : Graph :=
  { nodes := List.range d.n, edges := d.edgeIds }

/-- Content of a stored file: GML data or tokenised text lines (each line
a list of the integers on it). -/
inductive FileContent where
  | gmlContent (d : GmlDoc)
  | txtContent (lines : List (List Nat))
deriving Repr

/-- A path handed to `build_graph_from_file`: whether it is a regular
file, its base name, and the content found there. -/
structure FsFile where
  isFile : Bool
  fname : List Char
  content : FileContent
deriving Repr

/-- Embedding of `get_file_name_and_extension` (`util.py`): split at the
FIRST dot (`split(sep='.', maxsplit=1)`); no dot gives extension `None`. -/
def get_file_name_and_extension (fname : List Char) : List Char × Option (List Char) :=
  if fname.contains '.' then
    (fname.takeWhile (fun c => !(c == '.')),
     some ((fname.dropWhile (fun c => !(c == '.'))).tail))
  else (fname, none)

/-- The `gml` extension. -/
def gmlExt : List Char := ['g', 'm', 'l']

/-- The `txt` extension. -/
def txtExt : List Char := ['t', 'x', 't']

/-- Node insertion of `networkx.Graph.add_edge`: a new node is appended,
an existing one left alone. -/
def insertNode (g : Graph) (u : Nat) : Graph :=
  if g.nodes.contains u then g else { g with nodes := g.nodes ++ [u] }

/-- `networkx.Graph.add_edge` (via `add_edges_from`): inserts the missing
endpoints in order, then the edge unless it is present in either orientation. -/
def addEdge (g : Graph) (e : Nat × Nat) : Graph :=
  let g2 := insertNode (insertNode g e.1) e.2
  if g2.hasEdge e.1 e.2 then g2 else { g2 with edges := g2.edges ++ [e] }

/-- `g = nx.Graph(); g.add_edges_from(edges)`: the graph grown from the
empty graph — its nodes are exactly the edges' endpoints. -/
def add_edges_from (es : List (Nat × Nat)) : Graph :=
  es.foldl addEdge { nodes := [], edges := [] }

/-- The edge a text line describes: first two integers, smaller first
(`u, v = map(int, line[:2]); edge = (min(u, v), max(u, v))`). -/
def lineEdge (l : List Nat) : Nat × Nat :=
  (min (l.getD 0 0) (l.getD 1 0), max (l.getD 0 0) (l.getD 1 0))

/-- The edge-reading loop of the `txt` branch: each of the first `m` data
lines must carry at least two integers (`ValueError` otherwise, from the
unpacking `u, v = map(int, line[:2])`). -/
def parseTxtEdges (lines : List (List Nat)) : Except String (List (Nat × Nat)) :=
  match lines with
  | [] => .ok []
  | line :: rest =>
    match line with
    | _ :: _ :: _ => do
      let es ← parseTxtEdges rest
      .ok (lineEdge line :: es)
    | _ => .error "ValueError: not enough values to unpack"

/-- The `txt` branch of `build_graph_from_file`: the last integer of the
first line is the edge count `m`; the next `m` lines are read as edges
(`StopIteration` escapes when the file is shorter); the graph is built
with `add_edges_from` only. -/
def build_graph_from_txt (lines : List (List Nat)) : Except String Graph :=
  match lines with
  | [] => .error "IndexError: list index out of range"
  | first :: rest =>
    match first.getLast? with
    | none => .error "IndexError: list index out of range"
    | some m =>
      if rest.length < m then .error "StopIteration"
      else do
        let es ← parseTxtEdges (rest.take m)
        .ok (add_edges_from es)

/-- Embedding of `build_graph_from_file` (`util.py`). -/
def build_graph_from_file (f : FsFile) : Except String Graph :=
  if ¬ f.isFile then
    .error "ValueError: Invalid fpath parameter. Must be the path of the file."
  else
    match (get_file_name_and_extension f.fname).2 with
    | some e =>
      if e = gmlExt then
        match f.content with
        | .gmlContent d => .ok (readGml d)
        | .txtContent _ => .error "NetworkXError: file is not in GML format"
      else if e = txtExt then
        match f.content with
        | .txtContent lines => build_graph_from_txt lines
        | .gmlContent _ => .error "ValueError: invalid literal for int()"
      else .error "ValueError: File extension not supported, unsure of how to build graph."
    | none => .error "ValueError: No file extension provided, unsure of how to build graph."

/-- Embedding of `save_graph_in_store` (`util.py`) with its default
options (`append_n_nodes=True`, `append_n_edges=True`, fresh target): the
stored file is named `{g_name}_{n}_{m}.gml` and holds the GML data. -/
def save_graph_in_store (g : Graph) (g_name : List Char) : FsFile :=
  let n1 := g_name ++ '_' :: natChars g.nodes.length
  let n2 := n1 ++ '_' :: natChars g.edges.length
  { isFile := true, fname := n2 ++ '.' :: gmlExt, content := .gmlContent (writeGml g) }

/-- Decimal digit characters are never the dot. -/
theorem digitChar10_ne_dot (d : Nat) : digitChar10 d ≠ '.' := by
  unfold digitChar10
  repeat' split
  all_goals decide

/-- Decimal renderings contain no dot. -/
theorem natCharsAux_no_dot (fuel : Nat) : ∀ n, '.' ∉ natCharsAux fuel n := by
  induction fuel with
  | zero => intro n h; exact absurd h (List.not_mem_nil _)
  | succ f ih =>
    intro n h
    unfold natCharsAux at h
    split at h
    · rw [List.mem_singleton] at h
      exact digitChar10_ne_dot n h.symm
    · rw [List.mem_append] at h
      rcases h with h | h
      · exact ih (n / 10) h
      · rw [List.mem_singleton] at h
        exact digitChar10_ne_dot (n % 10) h.symm

/-- `str(n)` contains no dot. -/
theorem natChars_no_dot (n : Nat) : '.' ∉ natChars n :=
  natCharsAux_no_dot (n + 1) n

/-- `takeWhile` walks through a prefix it accepts entirely. -/
theorem takeWhile_append_all {α : Type} (p : α → Bool) (l1 l2 : List α)
    (h : ∀ x ∈ l1, p x = true) :
    (l1 ++ l2).takeWhile p = l1 ++ l2.takeWhile p := by
  induction l1 with
  | nil => simp
  | cons a t ih =>
    have ha : p a = true := h a (List.mem_cons_self a t)
    have ht : ∀ x ∈ t, p x = true := fun x hx => h x (List.mem_cons_of_mem a hx)
    simp [List.takeWhile_cons, ha, ih ht]

/-- `dropWhile` drops a prefix it accepts entirely. -/
theorem dropWhile_append_all {α : Type} (p : α → Bool) (l1 l2 : List α)
    (h : ∀ x ∈ l1, p x = true) :
    (l1 ++ l2).dropWhile p = l2.dropWhile p := by
  induction l1 with
  | nil => simp
  | cons a t ih =>
    have ha : p a = true := h a (List.mem_cons_self a t)
    have ht : ∀ x ∈ t, p x = true := fun x hx => h x (List.mem_cons_of_mem a hx)
    simp [List.dropWhile_cons, ha, ih ht]

/-- Splitting a name at the first dot, when the part before it is
dot-free, recovers exactly that part and the trailing extension. -/
theorem ext_of_dotfree_prefix (pre rest : List Char) (h : '.' ∉ pre) :
    get_file_name_and_extension (pre ++ '.' :: rest) = (pre, some rest) := by
  have hall : ∀ x ∈ pre, (fun c => !(c == '.')) x = true := by
    intro x hx
    simp only [Bool.not_eq_true']
    rw [beq_eq_false_iff_ne]
    intro hcontra
    exact h (hcontra ▸ hx)
  unfold get_file_name_and_extension
  rw [if_pos (by simp)]
  rw [takeWhile_append_all _ _ _ hall, dropWhile_append_all _ _ _ hall]
  simp

/-- A one-edge graph to drive the round-trip counterexample. -/
def singleEdgeGraph : Graph := { nodes := [0, 1], edges := [(0, 1)] }

/-- C3 counterexample: saving a graph under the name `a.b` stores the file
`a.b_2_1.gml`, but `build_graph_from_file` splits the name at the FIRST
dot, takes `b_2_1.gml` for the extension, and rejects the file with
`ValueError` — the round trip does not reproduce the graph for every
name. -/
theorem c3_counterexample :
    build_graph_from_file (save_graph_in_store singleEdgeGraph ['a', '.', 'b']) =
      .error "ValueError: File extension not supported, unsure of how to build graph." := by
  rfl

/-- C3 (amended): for every graph and every name without a dot, saving
and reloading succeeds and reproduces an isomorphic graph: node and edge
counts agree, and `u ↦ g.nodes.indexOf u` is an injective map into the
reloaded node set that preserves adjacency both ways. -/
theorem c3_amended (g : Graph) (g_name : List Char)
    (hdot : '.' ∉ g_name)
    (hend : ∀ e ∈ g.edges, e.1 ∈ g.nodes ∧ e.2 ∈ g.nodes) :
    ∃ g2, build_graph_from_file (save_graph_in_store g g_name) = .ok g2 ∧
      g2.nodes.length = g.nodes.length ∧
      g2.edges.length = g.edges.length ∧
      (∀ u ∈ g.nodes, g.nodes.indexOf u ∈ g2.nodes) ∧
      (∀ u ∈ g.nodes, ∀ v ∈ g.nodes, g.nodes.indexOf u = g.nodes.indexOf v → u = v) ∧
      (∀ u ∈ g.nodes, ∀ v ∈ g.nodes,
        g2.hasEdge (g.nodes.indexOf u) (g.nodes.indexOf v) = g.hasEdge u v) := by
  refine ⟨readGml (writeGml g), ?_, ?_, ?_, ?_, ?_, ?_⟩
  · have hpre : '.' ∉ g_name ++ '_' :: natChars g.nodes.length ++ '_' :: natChars g.edges.length := by
      intro hmem
      rcases List.mem_append.mp hmem with hmem | hmem
      · rcases List.mem_append.mp hmem with hmem | hmem
        · exact hdot hmem
        · rcases List.mem_cons.mp hmem with hmem | hmem
          · exact absurd hmem.symm (by decide)
          · exact natChars_no_dot _ hmem
      · rcases List.mem_cons.mp hmem with hmem | hmem
        · exact absurd hmem.symm (by decide)
        · exact natChars_no_dot _ hmem
    unfold build_graph_from_file save_graph_in_store
    simp only [List.append_assoc] at hpre ⊢
    have hassoc :
        g_name ++ ('_' :: natChars g.nodes.length ++
          ('_' :: natChars g.edges.length ++ '.' :: gmlExt)) =
        (g_name ++ ('_' :: natChars g.nodes.length ++ '_' :: natChars g.edges.length)) ++
          '.' :: gmlExt := by
      simp [List.append_assoc]
    rw [hassoc, ext_of_dotfree_prefix _ gmlExt hpre]
    simp
  · simp [readGml, writeGml]
  · simp [readGml, writeGml]
  · intro u hu
    simp only [readGml, writeGml, List.mem_range]
    exact List.indexOf_lt_length.mpr hu
  · intro u hu v hv
    exact fun h => (List.indexOf_inj hu hv).mp h
  · intro u hu v hv
    apply Bool.eq_iff_iff.mpr
    unfold Graph.hasEdge readGml writeGml
    simp only [List.any_eq_true, List.mem_map]
    constructor
    · rintro ⟨e, ⟨e', he', rfl⟩, hcond⟩
      refine ⟨e', he', ?_⟩
      simp only [beq_iff_eq, Bool.and_eq_true, Bool.or_eq_true] at hcond ⊢
      rcases hend e' he' with ⟨h1, h2⟩
      rcases hcond with ⟨ha, hb⟩ | ⟨ha, hb⟩
      · exact Or.inl ⟨(List.indexOf_inj h1 hu).mp ha, (List.indexOf_inj h2 hv).mp hb⟩
      · exact Or.inr ⟨(List.indexOf_inj h1 hv).mp ha, (List.indexOf_inj h2 hu).mp hb⟩
    · rintro ⟨e', he', hcond⟩
      refine ⟨(g.nodes.indexOf e'.1, g.nodes.indexOf e'.2), ⟨e', he', rfl⟩, ?_⟩
      simp only [beq_iff_eq, Bool.and_eq_true, Bool.or_eq_true] at hcond ⊢
      rcases hcond with ⟨ha, hb⟩ | ⟨ha, hb⟩
      · exact Or.inl ⟨by rw [ha], by rw [hb]⟩
      · exact Or.inr ⟨by rw [ha], by rw [hb]⟩

/-- C3 amended-theorem witness: the dot-free name works on the one-edge
graph, and the reload indeed succeeds. -/
theorem c3_amended_witness :
    ∃ g2, build_graph_from_file (save_graph_in_store singleEdgeGraph ['a', 'b']) = .ok g2 ∧
      g2.nodes.length = singleEdgeGraph.nodes.length ∧
      g2.edges.length = singleEdgeGraph.edges.length ∧
      (∀ u ∈ singleEdgeGraph.nodes, singleEdgeGraph.nodes.indexOf u ∈ g2.nodes) ∧
      (∀ u ∈ singleEdgeGraph.nodes, ∀ v ∈ singleEdgeGraph.nodes,
        singleEdgeGraph.nodes.indexOf u = singleEdgeGraph.nodes.indexOf v → u = v) ∧
      (∀ u ∈ singleEdgeGraph.nodes, ∀ v ∈ singleEdgeGraph.nodes,
        g2.hasEdge (singleEdgeGraph.nodes.indexOf u) (singleEdgeGraph.nodes.indexOf v) =
          singleEdgeGraph.hasEdge u v) :=
  c3_amended singleEdgeGraph ['a', 'b'] (by decide) (by decide)

/-! ### C5: the edge-list text loader -/

/-- Adjacency is orientation insensitive. -/
theorem hasEdge_comm (g : Graph) (u v : Nat) : g.hasEdge u v = g.hasEdge v u := by
  unfold Graph.hasEdge
  congr 1
  funext e
  rw [Bool.or_comm]

/-- `insertNode` leaves the edge list untouched. -/
theorem insertNode_edges (g : Graph) (u : Nat) : (insertNode g u).edges = g.edges := by
  unfold insertNode
  split <;> rfl

/-- Membership in the node list after `insertNode`. -/
theorem insertNode_nodes (g : Graph) (v u : Nat) :
    u ∈ (insertNode g v).nodes ↔ u ∈ g.nodes ∨ u = v := by
  unfold insertNode
  by_cases h : g.nodes.contains v = true
  · rw [if_pos h]
    have hv : v ∈ g.nodes := by simpa using h
    constructor
    · exact Or.inl
    · rintro (h' | rfl)
      · exact h'
      · exact hv
  · rw [if_neg h]
    simp

/-- Node membership after `addEdge`: the endpoints join the node list. -/
theorem addEdge_nodes (g : Graph) (e : Nat × Nat) (u : Nat) :
    u ∈ (addEdge g e).nodes ↔ u ∈ g.nodes ∨ u = e.1 ∨ u = e.2 := by
  have hnodes : (addEdge g e).nodes = (insertNode (insertNode g e.1) e.2).nodes := by
    unfold addEdge
    dsimp only
    split <;> rfl
  rw [hnodes, insertNode_nodes, insertNode_nodes]
  tauto

/-- Adjacency after `addEdge`: the new edge joins the relation. -/
theorem addEdge_hasEdge (g : Graph) (e : Nat × Nat) (u v : Nat) :
    (addEdge g e).hasEdge u v = true ↔
      (g.hasEdge u v = true ∨ (u, v) = e ∨ (v, u) = e) := by
  have hedges2 : (insertNode (insertNode g e.1) e.2).edges = g.edges := by
    rw [insertNode_edges, insertNode_edges]
  have hhe : ∀ a b, (insertNode (insertNode g e.1) e.2).hasEdge a b = g.hasEdge a b := by
    intro a b
    unfold Graph.hasEdge
    rw [hedges2]
  unfold addEdge
  dsimp only
  by_cases hdup : (insertNode (insertNode g e.1) e.2).hasEdge e.1 e.2 = true
  · rw [if_pos hdup, hhe]
    rw [hhe] at hdup
    constructor
    · exact Or.inl
    · rintro (h | h | h)
      · exact h
      · obtain ⟨h1, h2⟩ := Prod.mk.injEq .. ▸ h
        rw [← h1, ← h2] at hdup
        exact hdup
      · obtain ⟨h1, h2⟩ := Prod.mk.injEq .. ▸ h
        rw [← h1, ← h2] at hdup
        rw [hasEdge_comm]
        exact hdup
  · rw [if_neg hdup]
    unfold Graph.hasEdge
    rw [insertNode_edges, insertNode_edges]
    unfold Graph.hasEdge at hhe
    rw [List.any_append]
    simp only [List.any_cons, List.any_nil, Bool.or_false, Bool.or_eq_true,
      Bool.and_eq_true, beq_iff_eq, Prod.mk.injEq]
    constructor
    · rintro (h | ⟨h1, h2⟩ | ⟨h1, h2⟩)
      · exact Or.inl (by simpa using h)
      · exact Or.inr (Or.inl (by rw [← h1, ← h2]))
      · exact Or.inr (Or.inr (by rw [← h1, ← h2]))
    · rintro (h | h | h)
      · exact Or.inl (by simpa using h)
      · obtain ⟨h1, h2⟩ := Prod.mk.injEq .. ▸ h
        exact Or.inr (Or.inl ⟨h1.symm, h2.symm⟩)
      · obtain ⟨h1, h2⟩ := Prod.mk.injEq .. ▸ h
        exact Or.inr (Or.inr ⟨h1.symm, h2.symm⟩)

/-- Node membership through the `add_edges_from` fold. -/
theorem foldl_addEdge_nodes (es : List (Nat × Nat)) :
    ∀ (g0 : Graph) (u : Nat),
      u ∈ (es.foldl addEdge g0).nodes ↔ u ∈ g0.nodes ∨ ∃ e ∈ es, u = e.1 ∨ u = e.2 := by
  induction es with
  | nil => intro g0 u; simp
  | cons e t ih =>
    intro g0 u
    simp only [List.foldl_cons]
    rw [ih (addEdge g0 e) u]
    simp only [addEdge_nodes, List.mem_cons]
    constructor
    · rintro ((h | h | h) | ⟨f, hf, hor⟩)
      · exact Or.inl h
      · exact Or.inr ⟨e, Or.inl rfl, Or.inl h⟩
      · exact Or.inr ⟨e, Or.inl rfl, Or.inr h⟩
      · exact Or.inr ⟨f, Or.inr hf, hor⟩
    · rintro (h | ⟨f, hf | hf, hor⟩)
      · exact Or.inl (Or.inl h)
      · subst hf
        exact Or.inl (Or.inr hor)
      · exact Or.inr ⟨f, hf, hor⟩

/-- Adjacency through the `add_edges_from` fold. -/
theorem foldl_addEdge_hasEdge (es : List (Nat × Nat)) :
    ∀ (g0 : Graph) (u v : Nat),
      (es.foldl addEdge g0).hasEdge u v = true ↔
        (g0.hasEdge u v = true ∨ (u, v) ∈ es ∨ (v, u) ∈ es) := by
  induction es with
  | nil => intro g0 u v; simp
  | cons e t ih =>
    intro g0 u v
    simp only [List.foldl_cons]
    rw [ih (addEdge g0 e) u v, addEdge_hasEdge]
    simp only [List.mem_cons]
    tauto

/-- The edge-reading loop succeeds on well-formed lines with the
normalised edges, in file order. -/
theorem parseTxtEdges_eq (lines : List (List Nat)) (h : ∀ l ∈ lines, 2 ≤ l.length) :
    parseTxtEdges lines = .ok (lines.map lineEdge) := by
  induction lines with
  | nil => rfl
  | cons l t ih =>
    have hl : 2 ≤ l.length := h l (List.mem_cons_self l t)
    have ht : ∀ x ∈ t, 2 ≤ x.length := fun x hx => h x (List.mem_cons_of_mem l hx)
    cases l with
    | nil => exact absurd hl (by simp)
    | cons a l' =>
      cases l' with
      | nil => exact absurd hl (by simp)
      | cons b rest =>
        unfold parseTxtEdges
        rw [ih ht]
        rfl

/-- A text file declaring 3 vertices and 1 edge between 0 and 1. -/
def isolatedVertexFile : FsFile :=
  { isFile := true
  , fname := ['g', '.', 't', 'x', 't']
  , content := .txtContent [[3, 1], [0, 1]] }

/-- C5 counterexample: the file's first line declares 3 vertices (and 1
edge), yet the built graph holds only the 2 edge endpoints — the declared
vertex count is never read (only the LAST token of the first line is) and
isolated vertices are dropped, so the vertex set is not exactly the one
described by the file. -/
theorem c5_counterexample :
    build_graph_from_file isolatedVertexFile = .ok { nodes := [0, 1], edges := [(0, 1)] } ∧
    ({ nodes := [0, 1], edges := [(0, 1)] } : Graph).nodes.length = 2 := by
  constructor
  · rfl
  · rfl

/-- C5 (amended): on a well-formed edge-list text file the loader returns
the graph grown from the listed edges alone: each listed edge appears
normalised (smaller endpoint first), adjacency is exactly the listed
pairs, and the vertex set is exactly the set of listed endpoints (any
declared-but-isolated vertices are dropped); a path that is not a file,
has no extension, or has an unsupported extension gives `ValueError`. -/
theorem c5_amended :
    (∀ (f : FsFile) (first : List Nat) (rest : List (List Nat)) (m : Nat),
      f.isFile = true →
      (get_file_name_and_extension f.fname).2 = some txtExt →
      f.content = .txtContent (first :: rest) →
      first.getLast? = some m →
      m ≤ rest.length →
      (∀ l ∈ rest.take m, 2 ≤ l.length) →
      build_graph_from_file f = .ok (add_edges_from ((rest.take m).map lineEdge)) ∧
      (∀ e ∈ (rest.take m).map lineEdge, e.1 ≤ e.2) ∧
      (∀ u, u ∈ (add_edges_from ((rest.take m).map lineEdge)).nodes ↔
        ∃ e ∈ (rest.take m).map lineEdge, u = e.1 ∨ u = e.2) ∧
      (∀ u v, (add_edges_from ((rest.take m).map lineEdge)).hasEdge u v = true ↔
        ((u, v) ∈ (rest.take m).map lineEdge ∨ (v, u) ∈ (rest.take m).map lineEdge))) ∧
    (∀ f : FsFile, f.isFile = false →
      build_graph_from_file f =
        .error "ValueError: Invalid fpath parameter. Must be the path of the file.") ∧
    (∀ f : FsFile, f.isFile = true → (get_file_name_and_extension f.fname).2 = none →
      build_graph_from_file f =
        .error "ValueError: No file extension provided, unsure of how to build graph.") ∧
    (∀ (f : FsFile) (e : List Char), f.isFile = true →
      (get_file_name_and_extension f.fname).2 = some e → e ≠ gmlExt → e ≠ txtExt →
      build_graph_from_file f =
        .error "ValueError: File extension not supported, unsure of how to build graph.") := by
  refine ⟨?_, ?_, ?_, ?_⟩
  · intro f first rest m hfile hext hcontent hlast hm hlen
    refine ⟨?_, ?_, ?_, ?_⟩
    · unfold build_graph_from_file
      rw [if_neg (by simp [hfile]), hext]
      dsimp only
      rw [if_neg (by decide), if_pos rfl, hcontent]
      dsimp only
      unfold build_graph_from_txt
      dsimp only
      rw [hlast]
      dsimp only
      rw [if_neg (Nat.not_lt.mpr hm), parseTxtEdges_eq _ hlen]
      rfl
    · intro e he
      obtain ⟨l, _, rfl⟩ := List.mem_map.mp he
      exact min_le_max
    · intro u
      unfold add_edges_from
      rw [foldl_addEdge_nodes]
      simp
    · intro u v
      unfold add_edges_from
      rw [foldl_addEdge_hasEdge]
      simp [Graph.hasEdge]
  · intro f hfile
    unfold build_graph_from_file
    rw [if_pos (by simp [hfile])]
  · intro f hfile hext
    unfold build_graph_from_file
    rw [if_neg (by simp [hfile]), hext]
  · intro f e hfile hext hgml htxt
    unfold build_graph_from_file
    rw [if_neg (by simp [hfile]), hext]
    dsimp only
    rw [if_neg hgml, if_neg htxt]

/-- C5 amended-theorem witness: the four parts instantiated — a
well-formed two-line file, a non-file path, a dotless name, and an
unsupported `bin` extension. -/
theorem c5_witness :
    (build_graph_from_file
        { isFile := true, fname := ['h', '.', 't', 'x', 't']
        , content := .txtContent [[2, 1], [1, 0]] } =
      .ok (add_edges_from ([[1, 0]].map lineEdge))) ∧
    (build_graph_from_file
        { isFile := false, fname := ['h', '.', 't', 'x', 't']
        , content := .txtContent [] } =
      .error "ValueError: Invalid fpath parameter. Must be the path of the file.") ∧
    (build_graph_from_file
        { isFile := true, fname := ['h'], content := .txtContent [] } =
      .error "ValueError: No file extension provided, unsure of how to build graph.") ∧
    (build_graph_from_file
        { isFile := true, fname := ['h', '.', 'b', 'i', 'n'], content := .txtContent [] } =
      .error "ValueError: File extension not supported, unsure of how to build graph.") :=
  ⟨((c5_amended.1
      { isFile := true, fname := ['h', '.', 't', 'x', 't']
      , content := .txtContent [[2, 1], [1, 0]] }
      [2, 1] [[1, 0]] 1 rfl rfl rfl rfl (by decide) (by decide)).1),
   c5_amended.2.1 _ rfl,
   c5_amended.2.2.1 _ rfl rfl,
   c5_amended.2.2.2 _ ['b', 'i', 'n'] rfl rfl (by decide) (by decide)⟩
